/-
  Verification of the hz reverse proxy (github.com/zymawy/hz) against its
  natural-language specification.

  The Go sources are shallowly embedded: strings are Lean `String`s processed
  through their character lists (so that every definition is executable and
  kernel-reducible), stateful code is explicit state passing, and fallible
  code returns `Option`/`Except`.  Each section names the Go file and function
  it translates.
-/
import Mathlib

namespace Hz

/-! ### Models of the Go string / net primitives used by the sources

These translate the exact stdlib helpers the repository calls
(`strings.ToLower`, `strings.TrimSpace`, `strings.SplitN`, `strings.HasPrefix`,
`strings.TrimPrefix`, `strings.HasSuffix`, `strings.TrimSuffix`,
`strings.Contains`, `path.Clean`, `net.SplitHostPort`).  All are defined on
character lists by structural recursion so that `decide`/`rfl` evaluate them. -/

/-- ASCII lower-casing of one character (`unicode.ToLower` on the ASCII range,
which is the only range the sources exercise). -/
def charLower (c : Char) : Char :=
  if 65 ≤ c.toNat ∧ c.toNat ≤ 90 then Char.ofNat (c.toNat + 32) else c

/-- ASCII upper-casing of one character. -/
def charUpper (c : Char) : Char :=
  if 97 ≤ c.toNat ∧ c.toNat ≤ 122 then Char.ofNat (c.toNat - 32) else c

/-- Models `strings.ToLower` (ASCII range). -/
def strToLower (s : String) : String :=
  (s.toList.map charLower).asString

/-- Models `strings.ToUpper` (ASCII range). -/
def strToUpper (s : String) : String :=
  (s.toList.map charUpper).asString

/-- Models `strings.HasPrefix`. -/
def strStartsWith (s pre : String) : Bool :=
  pre.toList.isPrefixOf s.toList

/-- Models `strings.HasSuffix`. -/
def strEndsWith (s suf : String) : Bool :=
  suf.toList.reverse.isPrefixOf s.toList.reverse

/-- Models `strings.TrimPrefix`: drop `pre` when `s` starts with it. -/
def dropPfx (s pre : String) : String :=
  if strStartsWith s pre then (s.toList.drop pre.toList.length).asString else s

/-- Models `strings.TrimSuffix`: drop `suf` when `s` ends with it. -/
def dropSfx (s suf : String) : String :=
  if strEndsWith s suf then
    (s.toList.take (s.toList.length - suf.toList.length)).asString
  else s

/-- The white-space characters `strings.TrimSpace` strips (ASCII subset). -/
def isGoSpace (c : Char) : Bool :=
  c == (' ') || c == ('\t') || c == ('\n') || c == ('\r')

/-- Models `strings.TrimSpace` on ASCII input. -/
def strTrim (s : String) : String :=
  ((s.toList.dropWhile isGoSpace).reverse.dropWhile isGoSpace).reverse.asString

/-- Helper for `strSplitN2`: scan for the first separator. -/
def splitN2Aux (sep : Char) : List Char → List Char → List String
  | [], acc => [acc.reverse.asString]
  | x :: xs, acc =>
    if x = sep then [acc.reverse.asString, xs.asString]
    else splitN2Aux sep xs (x :: acc)

/-- Models `strings.SplitN(s, sep, 2)` for a one-character separator. -/
def strSplitN2 (s : String) (sep : Char) : List String :=
  splitN2Aux sep s.toList []

/-- Helper for `strSplitAll`: split on every separator occurrence. -/
def splitAllAux (sep : Char) : List Char → List Char → List String
  | [], acc => [acc.reverse.asString]
  | x :: xs, acc =>
    if x = sep then acc.reverse.asString :: splitAllAux sep xs []
    else splitAllAux sep xs (x :: acc)

/-- Models `strings.Split` for a one-character separator. -/
def strSplitAll (s : String) (sep : Char) : List String :=
  splitAllAux sep s.toList []

/-- Sub-sequence containment on character lists (helper for `strContainsSub`). -/
def containsSeq (needle : List Char) : List Char → Bool
  | [] => needle.isEmpty
  | x :: xs => needle.isPrefixOf (x :: xs) || containsSeq needle xs

/-- Models `strings.Contains`. -/
def strContainsSub (s sub : String) : Bool :=
  containsSeq sub.toList s.toList

/-- Models `strings.Index(s, ":")`-based port stripping and `net.SplitHostPort`
for ordinary `host:port` addresses: split at the last colon; fail when there is
no colon or when further colons remain in the host part (Go reports "too many
colons"; bracketed IPv6 literals are not modelled, no claim exercises them). -/
def splitHostPort (s : String) : Option (String × String) :=
  let cs := s.toList
  match cs.reverse.findIdx? (fun c => c == (':')) with
  | none => none
  | some i =>
    let host := cs.take (cs.length - i - 1)
    let port := cs.drop (cs.length - i)
    if host.contains (':') then none else some (host.asString, port.asString)

/-- Join path segments with `/` (helper for `cleanRooted`). -/
def joinSegs : List String → String
  | [] => ""
  | x :: xs => xs.foldl (fun acc seg => acc ++ ("/") ++ seg) x

/-- Segment-stack evaluation for `path.Clean` on rooted paths: empty and `.`
segments vanish, `..` pops, everything else pushes.  `acc` holds the stack
reversed (head = innermost segment). -/
def cleanSegsAux : List String → List String → List String
  | [], acc => acc.reverse
  | seg :: rest, acc =>
    if seg = "" ∨ seg = "." then cleanSegsAux rest acc
    else if seg = ".." then cleanSegsAux rest acc.tail
    else cleanSegsAux rest (seg :: acc)

/-- Models `path.Clean` for rooted inputs — the only way the sources call it
(`router.matchPath` always prepends `/` first). -/
def cleanRooted (s : String) : String :=
  let segs := cleanSegsAux (strSplitAll s ('/')) []
  if segs.isEmpty then ("/") else ("/") ++ joinSegs segs

/-! ### Data model — pkg/types/types.go

Only runtime-irrelevant metadata is elided (timestamps, counters and the
mutex, which no verified computation reads).  Durations are modelled in
seconds.  The Go field names `Prefix` and `StripPrefix` are rendered
`prefixAdd` and `prefixStrip`. -/

/-- `types.HealthStatus`. -/
inductive HealthStatus
  | healthy
  | unhealthy
  | unknown
deriving DecidableEq, Repr, BEq

/-- `types.HealthConfig` (durations in seconds). -/
structure HealthConfig where
  path : String
  interval : Nat
  timeout : Nat
deriving DecidableEq, Repr

/-- `types.RouteConfig`. -/
structure RouteConfig where
  path : String
  header : String
  subdomain : String
  method : String
  priority : Int
deriving DecidableEq, Repr

/-- `types.RewriteConfig` (`Prefix`/`StripPrefix`/`Replace`). -/
structure RewriteConfig where
  prefixAdd : String
  prefixStrip : String
  replace : String
deriving DecidableEq, Repr

/-- The parts of a parsed `net/url.URL` the sources read (`Scheme`, `Host`). -/
structure GoURL where
  scheme : String
  host : String
deriving DecidableEq, Repr

/-- `types.Service`.  `targetURL` is the `TargetURL` field filled in by
`config.validateAndParse`. -/
structure Service where
  name : String
  target : String
  targetURL : Option GoURL
  isDefault : Bool
  health : Option HealthConfig
  routes : List RouteConfig
  rewrite : Option RewriteConfig
  headers : List (String × String)
deriving DecidableEq, Repr

/-- `types.Route`.  The Go value stores a `MatchFunc` closure built by
`buildRoute` deterministically from `Config`; here the closure is recovered
from `cfg` by `routeMatches`, plus the flag `isDefaultRoute` marking the
directly-constructed fallback route (whose closure is constantly true). -/
structure Route where
  pattern : String
  service : Service
  cfg : RouteConfig
  isDefaultRoute : Bool
deriving DecidableEq, Repr

/-- An inbound `*http.Request` as the sources consume it: method, URL path,
`Host`, headers (name/value pairs in wire order), peer address, and the URL
scheme/host fields the director overwrites. -/
structure GoRequest where
  method : String
  urlPath : String
  urlScheme : String
  urlHost : String
  host : String
  headers : List (String × String)
  remoteAddr : String
deriving DecidableEq, Repr

/-! ### net/http header access

Go's `http.Header` canonicalizes names (`textproto.CanonicalMIMEHeaderKey`),
making `Get`/`Set` case-insensitive in the name; `Get` returns the first
value, `""` when absent; `Set` replaces all values of the name. -/

/-- Case-insensitive header-name comparison. -/
def hdrNameEq (a b : String) : Bool :=
  strToLower a == strToLower b

/-- Models `http.Header.Get`: first value of the (case-insensitively matched)
name, or `none`. -/
def headerGet (hs : List (String × String)) (k : String) : Option String :=
  (hs.find? (fun p => hdrNameEq p.1 k)).map (fun p => p.2)

/-- `http.Header.Get` with Go's `""`-for-absent convention. -/
def headerGetD (hs : List (String × String)) (k : String) : String :=
  (headerGet hs k).getD ("")

/-- Models `http.Header.Set`: drop existing values of the name, add the new
single value. -/
def headerSet (hs : List (String × String)) (k v : String) :
    List (String × String) :=
  hs.filter (fun p => !(hdrNameEq p.1 k)) ++ [(k, v)]

/-! ### Route compiler and matcher — internal/router/router.go -/

/-- `router.matchPath` (router.go:203-226): exact match, then lexical cleaning
of both sides, then `/*` descendant patterns, bare `*` prefix patterns, and
plain prefix comparison. -/
def matchPath (urlPath pat : String) : Bool :=
  if urlPath = pat then true
  else
    let u := cleanRooted (("/") ++ urlPath)
    let p := cleanRooted (("/") ++ pat)
    if strEndsWith p ("/*") then
      let pre := dropSfx p ("/*")
      u == pre || strStartsWith u (pre ++ ("/"))
    else if strEndsWith p ("*") then
      strStartsWith u (dropSfx p ("*"))
    else strStartsWith u p

/-- `router.matchSubdomain` (router.go:229-237): strip the port from the host,
then check the `sub ++ "."` prefix. -/
def matchSubdomain (host sub : String) : Bool :=
  let h := match host.toList.findIdx? (fun c => c == (':')) with
    | some i => (host.toList.take i).asString
    | none => host
  strStartsWith h (sub ++ ("."))

/-- The matcher closures `router.buildRoute` (router.go:70-131) accumulates:
path, header (only when splitting the pattern on `:` yields two parts — the
source splits with `strings.SplitN(cfg.Header, ":", 2)`), subdomain, method. -/
def clauseList (cfg : RouteConfig) : List (GoRequest → Bool) :=
  (if cfg.path ≠ "" then
      [fun req => matchPath req.urlPath cfg.path]
    else ([] : List (GoRequest → Bool)))
  ++ (if cfg.header ≠ "" then
      match strSplitN2 cfg.header (':') with
      | [n, v] => [fun req => headerGetD req.headers (strTrim n) == strTrim v]
      | _ => ([] : List (GoRequest → Bool))
    else ([] : List (GoRequest → Bool)))
  ++ (if cfg.subdomain ≠ "" then
      [fun req => matchSubdomain req.host cfg.subdomain]
    else ([] : List (GoRequest → Bool)))
  ++ (if cfg.method ≠ "" then
      [fun req => req.method == strToUpper cfg.method]
    else ([] : List (GoRequest → Bool)))

/-- `router.buildRoute`: a rule compiling to zero clauses is rejected
(returns `nil`); otherwise the route carries the path as its pattern string
(the Go zero value `""` when no path clause is present). -/
def buildRoute (svc : Service) (cfg : RouteConfig) : Option Route :=
  let pattern := if cfg.path ≠ "" then cfg.path else ("")
  if (clauseList cfg).isEmpty then none
  else some { pattern := pattern, service := svc, cfg := cfg, isDefaultRoute := false }

/-- The `Route.MatchFunc` closure: conjunction of the compiled clauses; the
directly-constructed default route's closure is constantly `true`
(router.go:42-44, 121-128). -/
def routeMatches (r : Route) (req : GoRequest) : Bool :=
  if r.isDefaultRoute then true
  else (clauseList r.cfg).all (fun m => m req)

/-- The comparator of `sort.Slice` in `Router.Build` (router.go:58-64):
higher priority first, then longer pattern string first. -/
def routeLess (a b : Route) : Bool :=
  if a.cfg.priority ≠ b.cfg.priority then decide (a.cfg.priority > b.cfg.priority)
  else decide (a.pattern.length > b.pattern.length)

/-- The wildcard fallback route `Router.Build` installs for a default service
(router.go:38-46). -/
def mkDefaultRoute (svc : Service) : Route :=
  { pattern := "*"
    service := svc
    cfg := { path := "", header := "", subdomain := "", method := "", priority := 0 }
    isDefaultRoute := true }

/-- Insert one route into a `routeLess`-sorted list, after all entries it is
not strictly before.  (Elementwise this is what Go's `sort.Slice` insertion
pass does.) -/
def insertSorted (x : Route) : List Route → List Route
  | [] => [x]
  | y :: ys => if routeLess x y then x :: y :: ys else y :: insertSorted x ys

/-- The `sort.Slice(r.routes, less)` call of `Router.Build`, modelled as the
insertion sort Go itself runs on small slices.  `sort.Slice` promises only the
comparator ordering (it is not documented stable); every theorem below relies
on the comparator ordering alone. -/
def sortRoutes (l : List Route) : List Route :=
  l.foldl (fun acc r => insertSorted r acc) []

/-- The `router.Router` fields `routes` and `defaultRoute`. -/
structure RouterState where
  routes : List Route
  defaultRoute : Option Route
deriving DecidableEq, Repr

/-- One iteration of the service loop in `Router.Build` (router.go:36-55):
a default service overwrites the default slot, and the service's compiled
routes are appended. -/
def buildStep (st : List Route × Option Route) (svc : Service) :
    List Route × Option Route :=
  let d := if svc.isDefault then some (mkDefaultRoute svc) else st.2
  (st.1 ++ svc.routes.filterMap (fun cfg => buildRoute svc cfg), d)

/-- `Router.Build` (router.go:29-67): one pass over the services assigns the
default slot and appends each service's compiled routes; the list is then
sorted. -/
def build (services : List Service) : RouterState :=
  let st := services.foldl buildStep ([], none)
  { routes := sortRoutes st.1, defaultRoute := st.2 }

/-- The scan inside `Router.Match` (router.go:139-143): first route whose
matcher accepts the request. -/
def matchLoop : List Route → GoRequest → Option Route
  | [], _ => none
  | r :: rs, req => if routeMatches r req then some r else matchLoop rs req

/-- `Router.Match` (router.go:134-151), with its Go `(route, error)` result:
first matching explicit route, else the default slot, else `nil` — every
return statement carries a `nil` error. -/
def routerMatch (rt : RouterState) (req : GoRequest) :
    Option Route × Option String :=
  match matchLoop rt.routes req with
  | some r => (some r, none)
  | none =>
    match rt.defaultRoute with
    | some d => (some d, none)
    | none => (none, none)

/-- `router.RewriteURL` (router.go:240-264) on a non-nil rewrite config:
strip prefix (re-rooting the result), add prefix, replace — in that order. -/
def rewriteURL (rw : RewriteConfig) (p : String) : String :=
  let p₁ := if rw.prefixStrip ≠ "" then
      let q := dropPfx p rw.prefixStrip
      if !(strStartsWith q ("/")) then ("/") ++ q else q
    else p
  let p₂ := if rw.prefixAdd ≠ "" then
      (if !(strStartsWith p₁ rw.prefixAdd) then rw.prefixAdd ++ p₁ else p₁)
    else p₁
  if rw.replace ≠ "" then rw.replace else p₂

/-! ### Dispatcher and director — internal/proxy (proxy.go) -/

/-- `Proxy.isWebSocketRequest` (proxy.go:258-261). -/
def isWebSocketRequest (req : GoRequest) : Bool :=
  strToLower (headerGetD req.headers ("Upgrade")) == ("websocket")
    && strContainsSub (strToLower (headerGetD req.headers ("Connection"))) ("upgrade")

/-- `Proxy.director` (proxy.go:264-291), given the route recovered from the
request context.  The Go map iteration over `Service.Headers` is modelled in
list order (`Header.Set` with distinct names is order-independent).  When the
route's service has no parsed target URL the Go code would dereference nil;
validation always fills it, so the model returns the request unchanged on that
dead branch. -/
def director (route : Route) (req : GoRequest) : GoRequest :=
  match route.service.targetURL with
  | none => req
  | some target =>
    let req := { req with
      urlScheme := target.scheme
      urlHost := target.host
      host := target.host }
    let req := match splitHostPort req.remoteAddr with
      | some (clientIP, _) =>
        let prior := headerGetD req.headers ("X-Forwarded-For")
        let clientIP := if prior ≠ "" then prior ++ (", ") ++ clientIP else clientIP
        { req with headers := headerSet req.headers ("X-Forwarded-For") clientIP }
      | none => req
    let req := { req with
      headers := headerSet req.headers ("X-Forwarded-Host") req.host }
    let req := { req with
      headers := headerSet req.headers ("X-Forwarded-Proto") ("http") }
    { req with
      headers := route.service.headers.foldl
        (fun hs kv => headerSet hs kv.1 kv.2) req.headers }

/-- How `Proxy.ServeHTTP` (proxy.go:98-141) disposes of a request:
the WebSocket hand-off, the `Match`-error branch, the no-route `502`, or the
forward to the matched route's service (rewriting, statistics and the byte
streaming happen beyond this classification). -/
inductive DispatchOutcome
  | websocketUpgrade
  | internalError (msg : String)
  | noRoute
  | forwarded (serviceName : String)
deriving DecidableEq, Repr

/-- `Proxy.ServeHTTP` (proxy.go:98-141): WebSocket detection, then
`router.Match` with its error checked first, then the nil-route `502`, then
the forward.  The handler has no reserved-path branch of any kind. -/
def serveHTTP (rt : RouterState) (req : GoRequest) : DispatchOutcome :=
  if isWebSocketRequest req then .websocketUpgrade
  else
    match routerMatch rt req with
    | (_, some e) => .internalError e
    | (none, none) => .noRoute
    | (some route, none) => .forwarded route.service.name

/-! ### Health probing — internal/registry (registry.go, `doHealthCheck`) -/

/-- The possible outcomes of one probe round inside `Registry.doHealthCheck`
(registry.go:360-402): `http.NewRequestWithContext` failing, `client.Do`
failing (transport, DNS or timeout), or an HTTP response with a status code. -/
inductive ProbeOutcome
  | newRequestError
  | transportError
  | response (code : Nat)
deriving DecidableEq, Repr

/-- Whether the probe failed before receiving any HTTP response. -/
def ProbeOutcome.isTransportFailure : ProbeOutcome → Bool
  | .newRequestError => true
  | .transportError => true
  | .response _ => false

/-- `Registry.doHealthCheck` as a transition on the backend's stored health
state: result is the new state and whether `ServiceHealthChanged` was emitted.
The two error paths call `SetStatus(Unhealthy)` and emit unconditionally; the
response path computes the new status from the 2xx test and emits only when
`oldStatus != newStatus`.  `hasProbe = false` models the `Health == nil` guard
(return `Healthy` without touching state or emitting). -/
def doHealthCheck (hasProbe : Bool) (old : HealthStatus) (o : ProbeOutcome) :
    HealthStatus × Bool :=
  if !hasProbe then (old, false)
  else
    match o with
    | .newRequestError => (.unhealthy, true)
    | .transportError => (.unhealthy, true)
    | .response code =>
      let newStatus : HealthStatus :=
        if 200 ≤ code ∧ code < 300 then .healthy else .unhealthy
      (newStatus, !(old == newStatus))

/-! ### Inspector ring — internal/inspector/inspector.go -/

/-- `inspector.Request`, reduced to the fields that flow through the ring
logic; the remaining captured metadata (timestamps, header map, float
duration) never influences `Capture`. -/
structure InspRequest where
  id : String
  method : String
  path : String
  host : String
  statusCode : Nat
deriving DecidableEq, Repr

/-- The `inspector.Inspector` fields read by `Capture`. -/
structure InspectorState where
  requests : List InspRequest
  maxSize : Nat
  requestSeq : Nat
deriving DecidableEq, Repr

/-- `inspector.New` (inspector.go:54-62): empty ring, capacity 100.  The port
only feeds the HTTP surface. -/
def inspectorNew : InspectorState :=
  { requests := [], maxSize := 100, requestSeq := 0 }

/-- `Inspector.Capture` (inspector.go:70-95): bump the sequence, stamp the id
`req_N`, prepend, trim the tail beyond `maxSize`.  (The SSE fan-out after the
lock does not touch the ring.) -/
def capture (st : InspectorState) (r : InspRequest) : InspectorState :=
  let seq := st.requestSeq + 1
  let r := { r with id := ("req_") ++ toString seq }
  let l := r :: st.requests
  let l := if l.length > st.maxSize then l.take st.maxSize else l
  { st with requests := l, requestSeq := seq }

/-! ### Config store — internal/config (config.go) -/

/-- `types.Config`, reduced to the `Services` list: the server, tunnel and
logging blocks never interact with validation, routing or reload retention. -/
structure Config where
  services : List Service
deriving DecidableEq, Repr

/-- Models `net/url.Parse` (stdlib): Go's parser rejects ASCII control
characters and otherwise accepts the string, from which the sources read
`Scheme` and `Host`.  Scheme = text before `"://"` (empty when absent); host =
text after it up to the next `/`. -/
def parseURL (s : String) : Option GoURL :=
  if s.toList.any (fun c => c.toNat < 32) then none
  else
    match strSplitN2 s (':') with
    | [sch, rest] =>
      if strStartsWith rest ("//") then
        let afterSlashes := (rest.toList.drop 2).asString
        some { scheme := sch, host := (strSplitN2 afterSlashes ('/')).headD ("") }
      else some { scheme := "", host := "" }
    | _ => some { scheme := "", host := "" }

/-- The service-level part of `Manager.applyDefaults` (config.go:74-122):
probe interval 30s, probe timeout 5s, status `Unknown` (status is runtime
state and not stored in `Config` here). -/
def applyDefaults (c : Config) : Config :=
  { services := c.services.map (fun svc =>
      match svc.health with
      | none => svc
      | some h =>
        let h₁ := { h with
          interval := if h.interval = 0 then 30 else h.interval
          timeout := if h.timeout = 0 then 5 else h.timeout }
        { svc with health := some h₁ }) }

/-- The per-service loop of `Manager.validateAndParse` (config.go:125-171),
with the source's check order: duplicate name, empty name, empty target,
target URL parse; a second `default: true` after one was seen is rejected.
Returns the services with `TargetURL` filled plus the final `hasDefault`. -/
def validateServices :
    List Service → List String → Bool → Except String (List Service × Bool)
  | [], _, hasDef => .ok ([], hasDef)
  | svc :: rest, seen, hasDef =>
    if seen.contains svc.name then
      .error (("duplicate service name: ") ++ svc.name)
    else if svc.name = "" then
      .error ("service has no name")
    else if svc.target = "" then
      .error (("service ") ++ svc.name ++ (" has no target"))
    else
      match parseURL svc.target with
      | none => .error (("invalid target URL for service ") ++ svc.name)
      | some u =>
        if svc.isDefault && hasDef then
          .error ("multiple default services defined")
        else
          match validateServices rest (svc.name :: seen) (hasDef || svc.isDefault) with
          | .error e => .error e
          | .ok (rest', hd) => .ok ({ svc with targetURL := some u } :: rest', hd)

/-- Mark the first service default (config.go:166-168). -/
def promoteFirstDefault : List Service → List Service
  | [] => []
  | svc :: rest => { svc with isDefault := true } :: rest

/-- `Manager.validateAndParse` (config.go:125-171): at least one service,
the per-service loop, then promotion of the first service when no explicit
default was declared. -/
def validateAndParse (c : Config) : Except String Config :=
  if c.services.isEmpty then .error ("at least one service must be defined")
  else
    match validateServices c.services [] false with
    | .error e => .error e
    | .ok (svcs, hasDef) =>
      let svcs := if hasDef = false ∧ 0 < svcs.length then promoteFirstDefault svcs else svcs
      .ok { services := svcs }

/-- The outcome of `os.ReadFile` + `yaml.Unmarshal` feeding `Manager.Load`
(config.go:45-72): the file read fails, the YAML parse fails, or a parsed
configuration is produced. -/
inductive LoadInput
  | readError
  | parseError
  | parsed (c : Config)
deriving DecidableEq, Repr

/-- `Manager.Load` (config.go:45-72) as a transition on the published
snapshot (`m.config`): read, parse, apply defaults, validate; only a fully
successful pass assigns `m.config`.  Result: the snapshot `Get` now returns,
and whether the load succeeded. -/
def load (prev : Option Config) (inp : LoadInput) : Option Config × Bool :=
  match inp with
  | .readError => (prev, false)
  | .parseError => (prev, false)
  | .parsed c =>
    match validateAndParse (applyDefaults c) with
    | .error _ => (prev, false)
    | .ok c' => (some c', true)

/-- One write event in `Manager.watchLoop` (config.go:230-267): run `Load`;
on failure `continue` without notifying; on success notify every listener
with `m.Get()` (the newly published snapshot).  Result: the published
snapshot, and the snapshot the listeners were called with (none when they
were not called). -/
def watchStep (prev : Option Config) (inp : LoadInput) :
    Option Config × Option Config :=
  match load prev inp with
  | (snap, false) => (snap, none)
  | (snap, true) => (snap, snap)

/-! ### Concrete fixtures

Services and requests taken from the specification's scenario S1 and from the
README's header-routing examples, used by the evaluating theorems below. -/

/-- The S1 rule `header: b-service=sabry`. -/
def sabryHeaderRule : RouteConfig :=
  { path := "", header := "b-service=sabry", subdomain := "", method := "", priority := 0 }

/-- S1 backend `sabry → http://127.0.0.1:3008` with rule `header: b-service=sabry`. -/
def svcSabry : Service :=
  { name := "sabry", target := "http://127.0.0.1:3008"
    targetURL := some { scheme := "http", host := "127.0.0.1:3008" }
    isDefault := false, health := none
    routes := [sabryHeaderRule]
    rewrite := none, headers := [] }

/-- S1 backend `ahmed → http://127.0.0.1:3009` with rule `header: b-service=ahmed`. -/
def svcAhmed : Service :=
  { name := "ahmed", target := "http://127.0.0.1:3009"
    targetURL := some { scheme := "http", host := "127.0.0.1:3009" }
    isDefault := false, health := none
    routes := [{ path := "", header := "b-service=ahmed", subdomain := "", method := "", priority := 0 }]
    rewrite := none, headers := [] }

/-- S1 backend `default → http://127.0.0.1:3001`, marked default. -/
def svcDefault : Service :=
  { name := "default", target := "http://127.0.0.1:3001"
    targetURL := some { scheme := "http", host := "127.0.0.1:3001" }
    isDefault := true, health := none
    routes := [], rewrite := none, headers := [] }

/-- A default backend named `backend` at `http://127.0.0.1:3008`. -/
def svcBackend : Service :=
  { name := "backend", target := "http://127.0.0.1:3008"
    targetURL := some { scheme := "http", host := "127.0.0.1:3008" }
    isDefault := true, health := none
    routes := [], rewrite := none, headers := [] }

/-- S1 request: `GET /x` carrying header `b-service: sabry`. -/
def reqS1 : GoRequest :=
  { method := "GET", urlPath := "/x", urlScheme := "http", urlHost := "localhost:3000"
    host := "localhost:3000", headers := [(("b-service"), ("sabry"))]
    remoteAddr := "127.0.0.1:55555" }

/-- A request for the reserved self-check path. -/
def reqHealth : GoRequest :=
  { method := "GET", urlPath := "/__hz/health", urlScheme := "http", urlHost := "localhost:3000"
    host := "localhost:3000", headers := [], remoteAddr := "127.0.0.1:55555" }

/-- A client request whose original `Host` is `example.com`. -/
def reqOrig : GoRequest :=
  { method := "GET", urlPath := "/x", urlScheme := "http", urlHost := "localhost:3000"
    host := "example.com", headers := [], remoteAddr := "9.9.9.9:1234" }

/-- Backend A of scenario-style tie: rule `path: /api`, priority 0. -/
def svcTieA : Service :=
  { name := "A", target := "http://127.0.0.1:4001"
    targetURL := some { scheme := "http", host := "127.0.0.1:4001" }
    isDefault := false, health := none
    routes := [{ path := "/api", header := "", subdomain := "", method := "", priority := 0 }]
    rewrite := none, headers := [] }

/-- Backend B with the same rule `path: /api`, priority 0 — equal priority,
equal pattern length, different backend. -/
def svcTieB : Service :=
  { name := "B", target := "http://127.0.0.1:4002"
    targetURL := some { scheme := "http", host := "127.0.0.1:4002" }
    isDefault := false, health := none
    routes := [{ path := "/api", header := "", subdomain := "", method := "", priority := 0 }]
    rewrite := none, headers := [] }

/-- A request both tie rules match. -/
def reqApi : GoRequest :=
  { method := "GET", urlPath := "/api/users", urlScheme := "http", urlHost := "localhost:3000"
    host := "localhost:3000", headers := [], remoteAddr := "127.0.0.1:55555" }

/-! ### Claim C1 — header-equality routing (code bug) -/

/-- Claim C1 (code bug in the source): the README, the CLI and the spec write
header rules as `Name=Value` (`header: b-service=sabry`), but `buildRoute`
splits the pattern on `:` (router.go:90), so the documented pattern yields no
header clause, the rule compiles to zero clauses and is dropped, and the S1
request `GET /x` with header `b-service: sabry` falls through to the default
backend instead of reaching `sabry`. -/
theorem c1_header_rule_dropped :
    buildRoute svcSabry sabryHeaderRule = none ∧
    ((routerMatch (build [svcSabry, svcAhmed, svcDefault]) reqS1).1.map
      (fun r => r.service.name)) = some ("default") := by
  decide

/-! ### Claim C2 — X-Forwarded-Host (code bug) -/

/-- Claim C2 (code bug in the source): the director assigns
`req.Host = target.Host` (proxy.go:274) before reading `req.Host` into
`X-Forwarded-Host` (proxy.go:284), so the forwarded header carries the
backend host `127.0.0.1:3008`, not the original host `example.com` that the
spec requires; the `Host` header itself is correctly set to the backend. -/
theorem c2_forwarded_host_is_backend_host :
    reqOrig.host = ("example.com") ∧
    (director (mkDefaultRoute svcBackend) reqOrig).host = ("127.0.0.1:3008") ∧
    headerGetD (director (mkDefaultRoute svcBackend) reqOrig).headers
      ("X-Forwarded-Host") = ("127.0.0.1:3008") := by
  decide

/-! ### Claim C5 — the /__hz/health self-check (code bug) -/

/-- Claim C5 (code bug in the source): `Proxy.ServeHTTP` has no reserved-path
branch, so `GET /__hz/health` is dispatched through `Router.Match` like any
ordinary path and forwarded to the default backend — the listener never
answers it itself with 200, although the repository's own `status` command
probes exactly this path. -/
theorem c5_health_path_dispatched_to_backend :
    serveHTTP (build [svcBackend]) reqHealth = .forwarded ("backend") := by
  decide

/-! ### Claim C3 — route ordering and match determinism

The comparator of `Router.Build` keys routes by (priority, pattern length)
only, and `sort.Slice` guarantees nothing beyond the comparator; two distinct
equal-priority equal-length rules that both match a request make `Match`
depend on the insertion order. -/

/-- The sort key `Router.Build`'s comparator reads: priority and pattern
length. -/
def routeKey (r : Route) : Int × Nat :=
  (r.cfg.priority, r.pattern.length)

theorem routeLess_iff (a b : Route) :
    routeLess a b = true ↔
      (b.cfg.priority < a.cfg.priority ∨
        (a.cfg.priority = b.cfg.priority ∧ b.pattern.length < a.pattern.length)) := by
  unfold routeLess
  by_cases h : a.cfg.priority = b.cfg.priority <;> simp [h]

theorem routeLess_false_iff (a b : Route) :
    routeLess a b = false ↔
      ¬(b.cfg.priority < a.cfg.priority ∨
        (a.cfg.priority = b.cfg.priority ∧ b.pattern.length < a.pattern.length)) := by
  rw [← routeLess_iff]
  exact ⟨fun h => by simp [h], fun h => by simpa using h⟩

theorem routeLess_irrefl (a : Route) : routeLess a a = false := by
  rw [routeLess_false_iff]
  omega

theorem routeLess_asymm {a b : Route} (h : routeLess a b = true) :
    routeLess b a = false := by
  rw [routeLess_iff] at h
  rw [routeLess_false_iff]
  omega

theorem routeLess_trans {a b c : Route} (h₁ : routeLess a b = true)
    (h₂ : routeLess b c = true) : routeLess a c = true := by
  rw [routeLess_iff] at h₁ h₂ ⊢
  omega

theorem routeLess_both_false {a b : Route} (h₁ : routeLess a b = false)
    (h₂ : routeLess b a = false) : routeKey a = routeKey b := by
  rw [routeLess_false_iff] at h₁ h₂
  unfold routeKey
  have hp : a.cfg.priority = b.cfg.priority := by omega
  have hl : a.pattern.length = b.pattern.length := by
    rcases Nat.lt_trichotomy a.pattern.length b.pattern.length with h | h | h
    · exact absurd (Or.inr ⟨hp.symm, h⟩) h₂
    · exact h
    · exact absurd (Or.inr ⟨hp, h⟩) h₁
  rw [hp, hl]

theorem mem_insertSorted {x y : Route} {l : List Route} :
    y ∈ insertSorted x l ↔ y = x ∨ y ∈ l := by
  induction l with
  | nil => simp [insertSorted]
  | cons z zs ih =>
    unfold insertSorted
    split
    · simp [or_comm, or_left_comm]
    · simp [ih, or_comm, or_left_comm]

theorem pairwise_insertSorted {x : Route} {l : List Route}
    (h : l.Pairwise (fun a b => routeLess b a = false)) :
    (insertSorted x l).Pairwise (fun a b => routeLess b a = false) := by
  induction l with
  | nil => simp [insertSorted]
  | cons y ys ih =>
    rw [List.pairwise_cons] at h
    unfold insertSorted
    split
    · rename_i hxy
      rw [List.pairwise_cons]
      refine ⟨?_, List.pairwise_cons.mpr h⟩
      intro z hz
      rcases List.mem_cons.mp hz with rfl | hz
      · exact routeLess_asymm hxy
      · by_contra hc
        have hzx : routeLess z x = true := by
          cases hzx : routeLess z x
          · exact absurd hzx hc
          · rfl
        have := routeLess_trans hzx hxy
        rw [h.1 z hz] at this
        exact Bool.false_ne_true this
    · rename_i hxy
      rw [List.pairwise_cons]
      refine ⟨?_, ih h.2⟩
      intro z hz
      rcases mem_insertSorted.mp hz with rfl | hz
      · exact Bool.of_not_eq_true hxy
      · exact h.1 z hz

theorem sortRoutes_pairwise_aux (l : List Route) (acc : List Route)
    (hacc : acc.Pairwise (fun a b => routeLess b a = false)) :
    (l.foldl (fun acc r => insertSorted r acc) acc).Pairwise
      (fun a b => routeLess b a = false) := by
  induction l generalizing acc with
  | nil => exact hacc
  | cons x xs ih => exact ih _ (pairwise_insertSorted hacc)

theorem sortRoutes_pairwise (l : List Route) :
    (sortRoutes l).Pairwise (fun a b => routeLess b a = false) :=
  sortRoutes_pairwise_aux l [] (List.Pairwise.nil)

theorem insertSorted_perm (x : Route) (l : List Route) :
    List.Perm (insertSorted x l) (x :: l) := by
  induction l with
  | nil => rfl
  | cons y ys ih =>
    unfold insertSorted
    split
    · rfl
    · exact ((ih.cons y).trans (List.Perm.swap x y ys))

theorem sortRoutes_perm_aux (l : List Route) (acc : List Route) :
    List.Perm (l.foldl (fun acc r => insertSorted r acc) acc) (acc ++ l) := by
  induction l generalizing acc with
  | nil => simp
  | cons x xs ih =>
    have h₁ := ih (insertSorted x acc)
    have h₂ : List.Perm (insertSorted x acc ++ xs) ((x :: acc) ++ xs) :=
      (insertSorted_perm x acc).append_right xs
    have h₃ : List.Perm ((x :: acc) ++ xs) (acc ++ x :: xs) :=
      List.perm_middle.symm
    exact (h₁.trans h₂).trans h₃

theorem sortRoutes_perm (l : List Route) : List.Perm (sortRoutes l) l := by
  simpa using sortRoutes_perm_aux l []

theorem matchLoop_eq_none_iff (l : List Route) (req : GoRequest) :
    matchLoop l req = none ↔ ∀ r ∈ l, routeMatches r req = false := by
  induction l with
  | nil => simp [matchLoop]
  | cons y ys ih =>
    unfold matchLoop
    by_cases h : routeMatches y req = true
    · simp [h]
    · have h' : routeMatches y req = false := Bool.of_not_eq_true h
      simp [h', ih]

theorem matchLoop_some_mem {l : List Route} {req : GoRequest} {r : Route}
    (h : matchLoop l req = some r) :
    r ∈ l ∧ routeMatches r req = true := by
  induction l with
  | nil => simp [matchLoop] at h
  | cons y ys ih =>
    unfold matchLoop at h
    by_cases hm : routeMatches y req = true
    · rw [if_pos hm] at h
      obtain rfl := Option.some.inj h
      exact ⟨List.mem_cons_self _ _, hm⟩
    · rw [if_neg hm] at h
      obtain ⟨hmem, hmr⟩ := ih h
      exact ⟨List.mem_cons_of_mem _ hmem, hmr⟩

theorem matchLoop_maximal {l : List Route} {req : GoRequest} {r : Route}
    (hs : l.Pairwise (fun a b => routeLess b a = false))
    (h : matchLoop l req = some r) :
    ∀ x ∈ l, routeMatches x req = true → routeLess x r = false := by
  induction l with
  | nil => simp [matchLoop] at h
  | cons y ys ih =>
    rw [List.pairwise_cons] at hs
    unfold matchLoop at h
    by_cases hm : routeMatches y req = true
    · rw [if_pos hm] at h
      obtain rfl := Option.some.inj h
      intro x hx _
      rcases List.mem_cons.mp hx with rfl | hx
      · exact routeLess_irrefl x
      · exact hs.1 x hx
    · rw [if_neg hm] at h
      intro x hx hmx
      rcases List.mem_cons.mp hx with rfl | hx
      · exact absurd hmx hm
      · exact ih hs.2 h x hx hmx

theorem firstMatch_det (rs₁ rs₂ : List Route) (req : GoRequest)
    (hperm : List.Perm rs₁ rs₂)
    (huniq : ∀ a ∈ rs₁, ∀ b ∈ rs₁, routeMatches a req = true →
      routeMatches b req = true → routeKey a = routeKey b → a = b) :
    matchLoop (sortRoutes rs₁) req = matchLoop (sortRoutes rs₂) req := by
  have p₁ := sortRoutes_perm rs₁
  have p₂ := sortRoutes_perm rs₂
  have hmem₁ : ∀ r : Route, r ∈ sortRoutes rs₁ ↔ r ∈ rs₁ := fun r => p₁.mem_iff
  have hmem₂ : ∀ r : Route, r ∈ sortRoutes rs₂ ↔ r ∈ rs₁ :=
    fun r => p₂.mem_iff.trans hperm.symm.mem_iff
  cases h₁ : matchLoop (sortRoutes rs₁) req with
  | none =>
    have hall := (matchLoop_eq_none_iff _ req).mp h₁
    symm
    rw [matchLoop_eq_none_iff]
    intro r hr
    exact hall r ((hmem₁ r).mpr ((hmem₂ r).mp hr))
  | some r₁ =>
    obtain ⟨hr₁mem, hr₁m⟩ := matchLoop_some_mem h₁
    cases h₂ : matchLoop (sortRoutes rs₂) req with
    | none =>
      have hall := (matchLoop_eq_none_iff _ req).mp h₂
      have : routeMatches r₁ req = false :=
        hall r₁ ((hmem₂ r₁).mpr ((hmem₁ r₁).mp hr₁mem))
      rw [hr₁m] at this
      simp at this
    | some r₂ =>
      obtain ⟨hr₂mem, hr₂m⟩ := matchLoop_some_mem h₂
      have hle₁ : routeLess r₂ r₁ = false :=
        matchLoop_maximal (sortRoutes_pairwise rs₁) h₁ r₂
          ((hmem₁ r₂).mpr ((hmem₂ r₂).mp hr₂mem)) hr₂m
      have hle₂ : routeLess r₁ r₂ = false :=
        matchLoop_maximal (sortRoutes_pairwise rs₂) h₂ r₁
          ((hmem₂ r₁).mpr ((hmem₁ r₁).mp hr₁mem)) hr₁m
      have hkey : routeKey r₁ = routeKey r₂ := routeLess_both_false hle₂ hle₁
      have : r₁ = r₂ :=
        huniq r₁ ((hmem₁ r₁).mp hr₁mem) r₂ ((hmem₂ r₂).mp hr₂mem) hr₁m hr₂m hkey
      rw [this]

/-- Counterexample to claim C3 as stated: the two S3-style rules `path: /api`
with priority 0 attached to different backends `A` and `B` are equal-priority
and equal-pattern-length, both match `GET /api/users`, and `Match` returns
backend `A`'s route under one insertion order and backend `B`'s under the
other — `Match(R)` is not insertion-order independent. -/
theorem c3_counterexample :
    ((routerMatch (build [svcTieA, svcTieB]) reqApi).1.map
      (fun r => r.service.name)) = some ("A") ∧
    ((routerMatch (build [svcTieB, svcTieA]) reqApi).1.map
      (fun r => r.service.name)) = some ("B") := by
  decide

/-- Claim C3 amended: after `Build` the route list is sorted by the
comparator's total preorder — descending priority, then descending
pattern-string length (`sort.Slice` promises nothing further, in particular
no stable tie order); and `Match(R)` is independent of the insertion order
exactly under the proviso the counterexample violates: whenever any two
compiled routes of equal priority and equal pattern length that both match
`R` are identical. -/
theorem c3_sorted_and_conditional_determinism :
    (∀ services : List Service,
      (build services).routes.Pairwise (fun a b => routeLess b a = false)) ∧
    (∀ (rs₁ rs₂ : List Route) (req : GoRequest), List.Perm rs₁ rs₂ →
      (∀ a ∈ rs₁, ∀ b ∈ rs₁, routeMatches a req = true →
        routeMatches b req = true → routeKey a = routeKey b → a = b) →
      matchLoop (sortRoutes rs₁) req = matchLoop (sortRoutes rs₂) req) := by
  constructor
  · intro services
    exact sortRoutes_pairwise _
  · exact firstMatch_det

/-- Route fixtures with distinct priorities for the C3 witness. -/
def rPrio1 : Route :=
  { pattern := "/api", service := svcTieA
    cfg := { path := "/api", header := "", subdomain := "", method := "", priority := 1 }
    isDefaultRoute := false }

/-- Companion fixture at priority 0. -/
def rPrio0 : Route :=
  { pattern := "/api", service := svcTieB
    cfg := { path := "/api", header := "", subdomain := "", method := "", priority := 0 }
    isDefaultRoute := false }

/-- Witness for the amended C3 theorem at concrete routes: with the tie
broken by distinct priorities the first match is insertion-order
independent. -/
theorem c3_determinism_witness :
    matchLoop (sortRoutes [rPrio1, rPrio0]) reqApi =
      matchLoop (sortRoutes [rPrio0, rPrio1]) reqApi :=
  c3_sorted_and_conditional_determinism.2 [rPrio1, rPrio0] [rPrio0, rPrio1]
    reqApi (List.Perm.swap rPrio0 rPrio1 []) (by decide)

/-! ### Claim C4 — health events on probe outcomes -/

/-- Counterexample to claim C4 as stated: with the backend already
`Unhealthy`, a transport failure leaves the state unchanged yet
`doHealthCheck` emits a `ServiceHealthChanged` event anyway — the two error
returns (registry.go:371-375, 378-382) emit unconditionally, only the
status-code path compares old and new state. -/
theorem c4_counterexample :
    doHealthCheck true .unhealthy .transportError = (.unhealthy, true) := by
  decide

/-- The health state one probe outcome maps to: 2xx responses to `Healthy`,
everything else to `Unhealthy`. -/
def probeTarget : ProbeOutcome → HealthStatus
  | .response code => if 200 ≤ code ∧ code < 300 then .healthy else .unhealthy
  | _ => .unhealthy

/-- Claim C4 amended: a probe maps a 2xx response to `Healthy` and anything
else to `Unhealthy`, never back to `Unknown`; a probe that received an HTTP
response emits `ServiceHealthChanged` exactly on a state transition (so a run
of consecutive non-2xx responses after a failure is silent), but a transport,
DNS or timeout failure — and a request-construction error — emits an event on
every occurrence, even when the state stays `Unhealthy`. -/
theorem c4_health_event_amended :
    ∀ (old : HealthStatus) (o : ProbeOutcome),
      (doHealthCheck true old o).1 = probeTarget o ∧
      ((doHealthCheck true old o).1 == HealthStatus.unknown) = false ∧
      (doHealthCheck true old o).2 = (!(old == probeTarget o) || o.isTransportFailure) := by
  intro old o
  cases o with
  | newRequestError => cases old <;> decide
  | transportError => cases old <;> decide
  | response code =>
    by_cases h : 200 ≤ code ∧ code < 300 <;>
      cases old <;>
        simp [doHealthCheck, probeTarget, ProbeOutcome.isTransportFailure, h] <;>
          decide

/-! ### Claim C6 — rewrite idempotence -/

/-- Counterexample to claim C6 as stated: the path `x` does not begin with the
prefix `/api`, yet the `StripPrefix=/api` rewrite is not a no-op on it — the
re-rooting step (router.go:248-250) prepends a `/`, producing `/x`. -/
theorem c6_counterexample :
    strStartsWith ("x") ("/api") = false ∧
    rewriteURL { prefixAdd := "", prefixStrip := "/api", replace := "" } ("x")
      = ("/x") ∧
    ((("/x") : String) == (("x") : String)) = false := by
  decide

/-- Claim C6 amended: for every path `P` that already starts with `/` and does
not begin with `X`, the `StripPrefix=X` rewrite is a no-op and applying it
again is again a no-op; and the `Replace=P` rewrite is idempotent for any
input.  (The leading-slash proviso is forced by the counterexample: on a path
without a leading `/` the strip step prepends one.) -/
theorem c6_rewrite_idempotence :
    (∀ (p x : String), strStartsWith p x = false → strStartsWith p ("/") = true →
      rewriteURL { prefixAdd := "", prefixStrip := x, replace := "" } p = p ∧
      rewriteURL { prefixAdd := "", prefixStrip := x, replace := "" }
        (rewriteURL { prefixAdd := "", prefixStrip := x, replace := "" } p) = p) ∧
    (∀ (p r : String),
      rewriteURL { prefixAdd := "", prefixStrip := "", replace := r }
        (rewriteURL { prefixAdd := "", prefixStrip := "", replace := r } p) =
      rewriteURL { prefixAdd := "", prefixStrip := "", replace := r } p) := by
  constructor
  · intro p x h hslash
    have hx : ¬(x = "") := by
      intro hx
      subst hx
      simp [strStartsWith, List.isPrefixOf] at h
    have hone :
        rewriteURL { prefixAdd := "", prefixStrip := x, replace := "" } p = p := by
      simp only [rewriteURL, dropPfx, h]
      simp [hx, hslash]
    exact ⟨hone, by rw [hone, hone]⟩
  · intro p r
    by_cases hr : r = ""
    · subst hr
      simp [rewriteURL, dropPfx]
    · simp [rewriteURL, hr]

/-- Witness for the amended C6 theorem: `/foo` starts with `/` and not with
`/api`; stripping `/api` once and twice leaves it unchanged. -/
theorem c6_witness :
    rewriteURL { prefixAdd := "", prefixStrip := "/api", replace := "" } ("/foo")
      = ("/foo") ∧
    rewriteURL { prefixAdd := "", prefixStrip := "/api", replace := "" }
      (rewriteURL { prefixAdd := "", prefixStrip := "/api", replace := "" } ("/foo"))
      = ("/foo") :=
  c6_rewrite_idempotence.1 ("/foo") ("/api") (by decide) (by decide)

/-! ### Claim C7 — failed loads retain the snapshot and stay silent -/

/-- Claim C7: when a configuration load fails — file read, YAML parse, or
validation — the published snapshot (`Get`) is unchanged and the watch loop
does not call the reload subscribers; the subscribers are called exactly on a
successful load, and then with the newly published snapshot itself
(config.go:45-72, 230-267). -/
theorem c7_failed_load_retains :
    ∀ (prev : Option Config) (inp : LoadInput),
      ((load prev inp).2 = false →
        (load prev inp).1 = prev ∧ (watchStep prev inp).2 = none) ∧
      ((watchStep prev inp).2.isSome = true →
        (load prev inp).2 = true ∧
          (watchStep prev inp).2 = (watchStep prev inp).1) := by
  intro prev inp
  cases inp with
  | readError => simp [load, watchStep]
  | parseError => simp [load, watchStep]
  | parsed c =>
    cases hv : validateAndParse (applyDefaults c) with
    | error e => simp [load, watchStep, hv]
    | ok c' => simp [load, watchStep, hv]

/-- A previously published snapshot for the C7 witness. -/
def cfgPrev : Config :=
  { services := [svcDefault] }

/-- Witness for C7 at concrete inputs: a parse failure retains `cfgPrev` and
notifies nobody, and a successful load of `cfgPrev`'s services notifies with
the published snapshot. -/
theorem c7_witness :
    ((load (some cfgPrev) .parseError).1 = some cfgPrev ∧
      (watchStep (some cfgPrev) .parseError).2 = none) ∧
    ((load none (.parsed cfgPrev)).2 = true ∧
      (watchStep none (.parsed cfgPrev)).2 = (watchStep none (.parsed cfgPrev)).1) :=
  ⟨(c7_failed_load_retains (some cfgPrev) .parseError).1 (by decide),
    (c7_failed_load_retains none (.parsed cfgPrev)).2 (by decide)⟩

/-! ### Claim C8 — default fallback -/

theorem validateServices_spec :
    ∀ (l : List Service) (seen : List String) (hd : Bool)
      (l' : List Service) (hd' : Bool),
      validateServices l seen hd = .ok (l', hd') →
      l'.length = l.length ∧
      (hd' = true → hd = true ∨ ∃ s ∈ l', s.isDefault = true) := by
  intro l
  induction l with
  | nil =>
    intro seen hd l' hd' h
    unfold validateServices at h
    obtain ⟨h1, h2⟩ := Prod.mk.injEq .. ▸ (Except.ok.inj h)
    subst h1
    subst h2
    exact ⟨rfl, fun hh => Or.inl hh⟩
  | cons svc rest ih =>
    intro seen hd l' hd' h
    unfold validateServices at h
    split at h
    · exact Except.noConfusion h
    split at h
    · exact Except.noConfusion h
    split at h
    · exact Except.noConfusion h
    split at h
    · exact Except.noConfusion h
    rename_i u hu
    split at h
    · exact Except.noConfusion h
    split at h
    · exact Except.noConfusion h
    rename_i rest' hd₂ heq
    obtain ⟨h1, h2⟩ := Prod.mk.injEq .. ▸ (Except.ok.inj h)
    subst h1
    subst h2
    obtain ⟨hlen, hdef⟩ := ih _ _ _ _ heq
    refine ⟨by simp [hlen], ?_⟩
    intro hhd
    rcases hdef hhd with hor | ⟨s, hs, hsd⟩
    · rcases Bool.or_eq_true .. ▸ hor with hh | hh
      · exact Or.inl hh
      · refine Or.inr ⟨{ svc with targetURL := some u }, List.mem_cons_self .., ?_⟩
        simpa using hh
    · exact Or.inr ⟨s, List.mem_cons_of_mem _ hs, hsd⟩

theorem build_default_aux :
    ∀ (l : List Service) (acc : List Route × Option Route),
      (l.foldl buildStep acc).2 = none →
      acc.2 = none ∧ ∀ s ∈ l, s.isDefault = false := by
  intro l
  induction l with
  | nil =>
    intro acc h
    exact ⟨h, by simp⟩
  | cons svc rest ih =>
    intro acc h
    rw [List.foldl_cons] at h
    obtain ⟨h1, h2⟩ := ih _ h
    by_cases hd : svc.isDefault = true
    · simp [buildStep, hd] at h1
    · have hacc : acc.2 = none := by simpa [buildStep, hd] using h1
      refine ⟨hacc, ?_⟩
      intro s hs
      rcases List.mem_cons.mp hs with rfl | hs
      · exact Bool.of_not_eq_true hd
      · exact h2 s hs

/-- Claim C8: whenever some backend is marked default — declared explicitly,
or promoted because no service declared `default: true`, in which case
validation marks the first service default — `Match` never returns a null
route: every request matches an explicit route or falls back to the default
slot that `Build` filled. -/
theorem c8_default_fallback :
    (∀ (c c' : Config), validateAndParse c = .ok c' →
      ∃ s ∈ c'.services, s.isDefault = true) ∧
    (∀ (services : List Service) (req : GoRequest),
      (∃ s ∈ services, s.isDefault = true) →
      (routerMatch (build services) req).1.isSome = true) := by
  constructor
  · intro c c' h
    unfold validateAndParse at h
    split at h
    · exact Except.noConfusion h
    rename_i hne
    split at h
    · exact Except.noConfusion h
    rename_i svcs hd heq
    obtain ⟨hlen, hdef⟩ := validateServices_spec _ _ _ _ _ heq
    have hc' : c' =
        { services := if hd = false ∧ 0 < svcs.length then promoteFirstDefault svcs else svcs } :=
      (Except.ok.inj h).symm
    cases hdb : hd with
    | false =>
      subst hdb
      have hnn : 0 < svcs.length := by
        rw [hlen]
        cases hcs : c.services with
        | nil => rw [hcs] at hne; simp at hne
        | cons a rest => simp
      rw [hc', if_pos ⟨rfl, hnn⟩]
      cases hsv : svcs with
      | nil => rw [hsv] at hnn; simp at hnn
      | cons a rest =>
        subst hsv
        exact ⟨{ a with isDefault := true }, by simp [promoteFirstDefault], rfl⟩
    | true =>
      rcases hdef hdb with hfalse | hex
      · exact Bool.noConfusion hfalse
      · rw [hc']
        subst hdb
        simpa using hex
  · intro services req hex
    have hne : ¬((services.foldl buildStep ([], none)).2 = none) := by
      intro hnone
      obtain ⟨-, hall⟩ := build_default_aux services ([], none) hnone
      obtain ⟨s, hs, hdef⟩ := hex
      rw [hall s hs] at hdef
      exact Bool.noConfusion hdef
    simp only [routerMatch]
    cases hm : matchLoop (build services).routes req with
    | some r => simp
    | none =>
      cases hdr : (build services).defaultRoute with
      | none => exact absurd hdr hne
      | some d => simp [hdr]

/-- A valid single-service configuration with no explicit default, for the
C8 witness. -/
def cfgNoDefault : Config :=
  { services := [{ name := "a", target := "http://localhost:3001"
                   targetURL := none, isDefault := false, health := none
                   routes := [], rewrite := none, headers := [] }] }

/-- What validation publishes for `cfgNoDefault`: the target parsed and the
first (only) service promoted to default. -/
def cfgNoDefaultValidated : Config :=
  { services := [{ name := "a", target := "http://localhost:3001"
                   targetURL := some { scheme := "http", host := "localhost:3001" }
                   isDefault := true, health := none
                   routes := [], rewrite := none, headers := [] }] }

/-- Witness for C8 at concrete inputs: validating `cfgNoDefault` yields a
default service, and `Match` on S1's backends (whose `default` backend is
explicit) finds a route for `GET /x`. -/
theorem c8_witness :
    (∃ s ∈ cfgNoDefaultValidated.services, s.isDefault = true) ∧
    (routerMatch (build [svcSabry, svcAhmed, svcDefault]) reqS1).1.isSome = true :=
  ⟨c8_default_fallback.1 cfgNoDefault cfgNoDefaultValidated (by rfl),
    c8_default_fallback.2 [svcSabry, svcAhmed, svcDefault] reqS1
      ⟨svcDefault, by decide, by decide⟩⟩

/-! ### Claim C9 — the inspector ring -/

theorem capture_len (st : InspectorState) (r : InspRequest) :
    (capture st r).requests.length ≤ st.maxSize := by
  simp only [capture]
  split
  · simp [List.length_take]
  · rename_i hle
    simp only [List.length_cons]
    simp at hle
    omega

theorem foldl_capture_bound :
    ∀ (l : List InspRequest) (st : InspectorState),
      st.requests.length ≤ st.maxSize →
      (l.foldl capture st).requests.length ≤ st.maxSize ∧
      (l.foldl capture st).maxSize = st.maxSize := by
  intro l
  induction l with
  | nil => intro st h; exact ⟨h, rfl⟩
  | cons r rest ih =>
    intro st h
    rw [List.foldl_cons]
    have hm : (capture st r).maxSize = st.maxSize := rfl
    obtain ⟨h1, h2⟩ := ih (capture st r) (hm ▸ capture_len st r)
    exact ⟨by rw [← hm]; exact h1, by rw [← hm]; exact h2⟩

/-- Claim C9: starting from `inspector.New`, the ring never holds more than
100 records; each `Capture` bumps the sequence by one and stamps the record
with the strictly increasing id `req_N`, prepends it (so the ring reads
newest-first), and on overflow evicts exactly the oldest record from the
tail. -/
theorem c9_inspector_ring :
    (∀ l : List InspRequest,
      (l.foldl capture inspectorNew).requests.length ≤ 100) ∧
    (∀ (st : InspectorState) (r : InspRequest),
      (capture st r).requestSeq = st.requestSeq + 1 ∧
      (0 < st.maxSize →
        (capture st r).requests.head? =
          some { r with id := ("req_") ++ toString (st.requestSeq + 1) }) ∧
      (st.requests.length = st.maxSize → 0 < st.maxSize →
        (capture st r).requests =
          { r with id := ("req_") ++ toString (st.requestSeq + 1) } ::
            st.requests.dropLast)) := by
  constructor
  · intro l
    exact (foldl_capture_bound l inspectorNew (by simp [inspectorNew])).1
  · intro st r
    refine ⟨rfl, ?_, ?_⟩
    · intro hpos
      simp only [capture]
      split
      · obtain ⟨m, hm⟩ := Nat.exists_eq_add_of_lt hpos
        rw [show st.maxSize = m + 1 by omega, List.take_succ_cons]
        rfl
      · rfl
    · intro hfull hpos
      simp only [capture]
      rw [if_pos (by simp [List.length_cons]; omega)]
      obtain ⟨m, hm⟩ := Nat.exists_eq_add_of_lt hpos
      have hms : st.maxSize = m + 1 := by omega
      rw [hms, List.take_succ_cons, List.dropLast_eq_take]
      rw [hfull, hms]
      simp

/-- Ring entries for the C9 witness. -/
def inspA : InspRequest :=
  { id := "req_5", method := "GET", path := "/a", host := "h", statusCode := 200 }

/-- Second (older) ring entry. -/
def inspB : InspRequest :=
  { id := "req_4", method := "GET", path := "/b", host := "h", statusCode := 200 }

/-- The record being captured in the C9 witness. -/
def inspNewReq : InspRequest :=
  { id := "", method := "POST", path := "/c", host := "h", statusCode := 201 }

/-- A full ring of capacity 2 for the C9 witness. -/
def inspSt : InspectorState :=
  { requests := [inspA, inspB], maxSize := 2, requestSeq := 5 }

/-- Witness for C9 at a concrete full ring: capturing into a full capacity-2
ring prepends the freshly-stamped record and evicts exactly the tail. -/
theorem c9_witness :
    (capture inspSt inspNewReq).requests =
      { inspNewReq with id := ("req_") ++ toString (inspSt.requestSeq + 1) } ::
        inspSt.requests.dropLast :=
  ((c9_inspector_ring.2 inspSt inspNewReq).2.2) (by decide) (by decide)

/-! ### Claim C10 — Match never errors, InternalError unreachable -/

/-- Whether a dispatch outcome is the dispatcher's `InternalError` branch. -/
def DispatchOutcome.isInternalError : DispatchOutcome → Bool
  | .internalError _ => true
  | _ => false

/-- Every return path of `Router.Match` carries a `nil` error. -/
theorem routerMatch_err_none (rt : RouterState) (req : GoRequest) :
    (routerMatch rt req).2 = none := by
  unfold routerMatch
  cases matchLoop rt.routes req <;> cases rt.defaultRoute <;> rfl

/-- Claim C10: `Router.Match` returns a `nil` error for every request and
every route-table contents — each of its three return statements carries
`nil` — so the dispatcher's `InternalError` branch (taken only when `Match`
errors, proxy.go:111-116) is unreachable. -/
theorem c10_match_never_errors :
    ∀ (rt : RouterState) (req : GoRequest),
      (routerMatch rt req).2 = none ∧
      (serveHTTP rt req).isInternalError = false := by
  intro rt req
  refine ⟨routerMatch_err_none rt req, ?_⟩
  unfold serveHTTP
  split
  · rfl
  · split
    · rename_i heq
      have h := routerMatch_err_none rt req
      rw [heq] at h
      simp at h
    · rfl
    · rfl

end Hz
